import Mathlib

/-!
Verification of the Minnesota State Park travel-guide pipeline
(`MN_Park_Guide_With_Street_Map_V2_Email_Edits.py`).

The script is embedded shallowly:
* network results are an explicit environment (`Env`);
* the python-docx document is a list of items (`Doc`), the filesystem an
  association list from filename to byte content (`FS`);
* `random.choice` draws are an explicit stream `draws : Nat → Nat` giving
  the index drawn at each step (reduced modulo the list length, as a
  uniform choice over the list's positions);
* the unbounded `while` loop of `choose_rand_park` runs on fuel, with
  `none` meaning the fuel was exhausted (so divergence is
  `∀ fuel, result = none`);
* a Python exception is an explicit error value (`SampleErr`, `PyErr`,
  or the `err` field of the assembly state).
-/

namespace ParkGuide

/-! ## Sampler (`choose_rand_park`) -/

/-- `random.choice` on an empty sequence raises `IndexError`. -/
inductive SampleErr where
  | indexError
deriving DecidableEq, Repr

/-- One `random.choice(park_ids_list)` draw at time `t`: the stream picks a
position of the list.  Only used under a proof that the list is nonempty,
where the default `""` is never returned. -/
def randChoice (draws : Nat → Nat) (t : Nat) (l : List String) : String :=
  l.getD (draws t % l.length) ""

/-- The `while total_parks > 0` loop of `choose_rand_park`, on fuel.
State: time `t` of the draw stream, remaining count `total`, and the
accumulator `sel` (`random_park_id_selection`).  Mirrors the source:
test the counter, draw, append only if not already chosen. -/
def chooseLoop (draws : Nat → Nat) (l : List String) :
    Nat → Nat → Nat → List String → Option (Except SampleErr (List String))
  | 0, _, _, _ => none
  | fuel+1, t, total, sel =>
    if total = 0 then some (Except.ok sel)
    else if l.length = 0 then some (Except.error SampleErr.indexError)
    else if randChoice draws t l ∈ sel then
      chooseLoop draws l fuel (t+1) total sel
    else
      chooseLoop draws l fuel (t+1) (total - 1) (sel ++ [randChoice draws t l])

/-- `choose_rand_park(total_parks, park_ids_list)`. -/
def choose_rand_park (draws : Nat → Nat) (fuel : Nat) (total_parks : Nat)
    (park_ids_list : List String) : Option (Except SampleErr (List String)) :=
  chooseLoop draws park_ids_list fuel 0 total_parks []

/-- The drawn element belongs to the list whenever the list is nonempty. -/
theorem randChoice_mem (draws : Nat → Nat) (t : Nat) (l : List String)
    (h : l.length ≠ 0) : randChoice draws t l ∈ l := by
  unfold randChoice
  have hlt : draws t % l.length < l.length := Nat.mod_lt _ (Nat.pos_of_ne_zero h)
  rw [List.getD_eq_getElem _ _ hlt]
  exact List.getElem_mem hlt

/-- Loop invariant: an accepted run extends a duplicate-free selection of
elements of `l` into one of length `sel.length + total`. -/
theorem chooseLoop_ok_spec (draws : Nat → Nat) (l : List String) :
    ∀ (fuel t total : Nat) (sel r : List String),
    chooseLoop draws l fuel t total sel = some (Except.ok r) →
    sel.Nodup → (∀ x ∈ sel, x ∈ l) →
    r.Nodup ∧ (∀ x ∈ r, x ∈ l) ∧ r.length = sel.length + total := by
  intro fuel
  induction fuel with
  | zero => intro t total sel r h; simp [chooseLoop] at h
  | succ fuel ih =>
    intro t total sel r h hnd hsub
    rw [chooseLoop] at h
    by_cases h0 : total = 0
    · rw [if_pos h0] at h
      have hr : sel = r := by
        have := Option.some.inj h
        exact Except.ok.inj this
      subst hr
      exact ⟨hnd, hsub, by omega⟩
    · rw [if_neg h0] at h
      by_cases hl : l.length = 0
      · rw [if_pos hl] at h
        exact absurd (Option.some.inj h) (by intro hc; cases hc)
      · rw [if_neg hl] at h
        by_cases hc : randChoice draws t l ∈ sel
        · rw [if_pos hc] at h
          exact ih (t+1) total sel r h hnd hsub
        · rw [if_neg hc] at h
          obtain ⟨hnd', hsub', hlen'⟩ :=
            ih (t+1) (total - 1) (sel ++ [randChoice draws t l]) r h
              (by simpa [List.nodup_append] using ⟨hnd, hc⟩)
              (by
                intro x hx
                rcases List.mem_append.1 hx with hx | hx
                · exact hsub x hx
                · rcases List.mem_singleton.1 hx with rfl
                  exact randChoice_mem draws t l hl)
          refine ⟨hnd', hsub', ?_⟩
          rw [hlen']
          simp only [List.length_append, List.length_singleton]
          omega

/-- Fairness of the draw stream: from any time on, every position of the
list is eventually drawn (true with probability 1 for `random.choice`). -/
def Fair (draws : Nat → Nat) (l : List String) : Prop :=
  ∀ t i, i < l.length → ∃ k, draws (t + k) % l.length = i

/-- A duplicate-free list of elements of `l` is no longer than `l.dedup`. -/
theorem nodup_length_le_dedup (l sel : List String) (hnd : sel.Nodup)
    (hsub : ∀ x ∈ sel, x ∈ l) : sel.length ≤ l.dedup.length := by
  have hsub' : sel.toFinset ⊆ l.toFinset := by
    intro x hx
    exact List.mem_toFinset.2 (hsub x (List.mem_toFinset.1 hx))
  have := Finset.card_le_card hsub'
  rwa [List.toFinset_card_of_nodup hnd, List.card_toFinset] at this

/-- A strictly shorter duplicate-free selection misses some element of `l`. -/
theorem exists_fresh (l sel : List String) (hnd : sel.Nodup)
    (hsub : ∀ x ∈ sel, x ∈ l) (hlt : sel.length < l.dedup.length) :
    ∃ x, x ∈ l ∧ x ∉ sel := by
  have hsub' : sel.toFinset ⊆ l.toFinset := by
    intro x hx
    exact List.mem_toFinset.2 (hsub x (List.mem_toFinset.1 hx))
  have hcard : sel.toFinset.card < l.toFinset.card := by
    rw [List.toFinset_card_of_nodup hnd, List.card_toFinset]
    exact hlt
  have hss : sel.toFinset ⊂ l.toFinset :=
    hsub'.ssubset_of_ne (by
      intro h
      rw [h] at hcard
      exact lt_irrefl _ hcard)
  obtain ⟨x, hx, hx2⟩ := Finset.exists_of_ssubset hss
  exact ⟨x, List.mem_toFinset.1 hx, fun h => hx2 (List.mem_toFinset.2 h)⟩

/-- If a fresh element is drawn `k` steps from now, the loop completes its
remaining `n+1` acceptances (given that remaining counts stay feasible).
`ih` is the induction hypothesis for `n` remaining acceptances. -/
theorem chooseLoop_reach (draws : Nat → Nat) (l : List String) (n : Nat)
    (ih : ∀ (t : Nat) (sel : List String), sel.Nodup → (∀ x ∈ sel, x ∈ l) →
      sel.length + n ≤ l.dedup.length →
      ∃ fuel r, chooseLoop draws l fuel t n sel = some (Except.ok r)) :
    ∀ (k t : Nat) (sel : List String) (x : String), sel.Nodup →
      (∀ y ∈ sel, y ∈ l) → sel.length + (n+1) ≤ l.dedup.length →
      x ∈ l → x ∉ sel → randChoice draws (t + k) l = x →
      ∃ fuel r, chooseLoop draws l fuel t (n+1) sel = some (Except.ok r) := by
  intro k
  induction k with
  | zero =>
    intro t sel x hnd hsub hle hxl hxs hrc
    have hl : l.length ≠ 0 := by
      intro h0
      rw [List.eq_nil_of_length_eq_zero h0] at hxl
      exact (List.not_mem_nil x) hxl
    rw [Nat.add_zero] at hrc
    obtain ⟨fuel, r, hr⟩ := ih (t+1) (sel ++ [x])
      (by simpa [List.nodup_append] using ⟨hnd, hxs⟩)
      (by
        intro y hy
        rcases List.mem_append.1 hy with hy | hy
        · exact hsub y hy
        · rcases List.mem_singleton.1 hy with rfl
          exact hxl)
      (by simp only [List.length_append, List.length_singleton]; omega)
    refine ⟨fuel+1, r, ?_⟩
    rw [chooseLoop, if_neg (Nat.succ_ne_zero n), if_neg hl, hrc, if_neg hxs]
    simpa using hr
  | succ k ihk =>
    intro t sel x hnd hsub hle hxl hxs hrc
    have hl : l.length ≠ 0 := by
      intro h0
      rw [List.eq_nil_of_length_eq_zero h0] at hxl
      exact (List.not_mem_nil x) hxl
    by_cases hc : randChoice draws t l ∈ sel
    · obtain ⟨fuel, r, hr⟩ := ihk (t+1) sel x hnd hsub hle hxl hxs
        (by rw [← hrc]; ring_nf)
      refine ⟨fuel+1, r, ?_⟩
      rw [chooseLoop, if_neg (Nat.succ_ne_zero n), if_neg hl, if_pos hc]
      exact hr
    · obtain ⟨fuel, r, hr⟩ := ih (t+1) (sel ++ [randChoice draws t l])
        (by simpa [List.nodup_append] using ⟨hnd, hc⟩)
        (by
          intro y hy
          rcases List.mem_append.1 hy with hy | hy
          · exact hsub y hy
          · rcases List.mem_singleton.1 hy with rfl
            exact randChoice_mem draws t l hl)
        (by simp only [List.length_append, List.length_singleton]; omega)
      refine ⟨fuel+1, r, ?_⟩
      rw [chooseLoop, if_neg (Nat.succ_ne_zero n), if_neg hl, if_neg hc]
      simpa using hr

/-- Under fairness, the loop terminates whenever the remaining count is
feasible for the number of distinct elements. -/
theorem chooseLoop_terminates (draws : Nat → Nat) (l : List String)
    (hfair : Fair draws l) :
    ∀ (total t : Nat) (sel : List String), sel.Nodup →
      (∀ x ∈ sel, x ∈ l) → sel.length + total ≤ l.dedup.length →
      ∃ fuel r, chooseLoop draws l fuel t total sel = some (Except.ok r) := by
  intro total
  induction total with
  | zero =>
    intro t sel _ _ _
    exact ⟨1, sel, by rw [chooseLoop, if_pos rfl]⟩
  | succ n ih =>
    intro t sel hnd hsub hle
    obtain ⟨x, hxl, hxs⟩ := exists_fresh l sel hnd hsub (by omega)
    obtain ⟨k, hk⟩ := hfair t (l.indexOf x) (List.indexOf_lt_length.2 hxl)
    have hrc : randChoice draws (t + k) l = x := by
      unfold randChoice
      rw [hk, List.getD_eq_getElem _ _ (List.indexOf_lt_length.2 hxl)]
      exact List.getElem_indexOf _
    exact chooseLoop_reach draws l n ih k t sel x hnd hsub hle hxl hxs hrc

/-- With a nonempty list of fewer distinct elements than required, no
amount of fuel makes the loop return: every run exhausts its fuel. -/
theorem chooseLoop_stuck (draws : Nat → Nat) (l : List String)
    (hne : l.length ≠ 0) :
    ∀ (fuel t total : Nat) (sel : List String), sel.Nodup →
      (∀ x ∈ sel, x ∈ l) → l.dedup.length < sel.length + total →
      chooseLoop draws l fuel t total sel = none := by
  intro fuel
  induction fuel with
  | zero => intro t total sel _ _ _; rfl
  | succ fuel ih =>
    intro t total sel hnd hsub hlt
    have h0 : total ≠ 0 := by
      intro h
      subst h
      have := nodup_length_le_dedup l sel hnd hsub
      omega
    rw [chooseLoop, if_neg h0, if_neg hne]
    by_cases hc : randChoice draws t l ∈ sel
    · rw [if_pos hc]
      exact ih (t+1) total sel hnd hsub hlt
    · rw [if_neg hc]
      refine ih (t+1) (total - 1) (sel ++ [randChoice draws t l])
        (by simpa [List.nodup_append] using ⟨hnd, hc⟩)
        (by
          intro y hy
          rcases List.mem_append.1 hy with hy | hy
          · exact hsub y hy
          · rcases List.mem_singleton.1 hy with rfl
            exact randChoice_mem draws t l hne)
        (by simp only [List.length_append, List.length_singleton]; omega)

/-- Statement-by-statement embedding of `choose_rand_park` that threads the
variable `park_ids_list` through every iteration and returns its final
value alongside the result: the source only reads the list
(`random.choice`) and appends to the separate local
`random_park_id_selection`, so the list is passed on unchanged. -/
def chooseLoopSt (draws : Nat → Nat) :
    Nat → Nat → Nat → List String → List String →
    Option (Except SampleErr (List String) × List String)
  | 0, _, _, _, _ => none
  | fuel+1, t, total, park_ids_list, sel =>
    if total = 0 then some (Except.ok sel, park_ids_list)
    else if park_ids_list.length = 0 then
      some (Except.error SampleErr.indexError, park_ids_list)
    else if randChoice draws t park_ids_list ∈ sel then
      chooseLoopSt draws fuel (t+1) total park_ids_list sel
    else
      chooseLoopSt draws fuel (t+1) (total - 1) park_ids_list
        (sel ++ [randChoice draws t park_ids_list])

/-- `choose_rand_park` with the input list as explicit state. -/
def choose_rand_park_st (draws : Nat → Nat) (fuel total_parks : Nat)
    (park_ids_list : List String) :
    Option (Except SampleErr (List String) × List String) :=
  chooseLoopSt draws fuel 0 total_parks park_ids_list []

theorem chooseLoopSt_preserves (draws : Nat → Nat) :
    ∀ (fuel t total : Nat) (l sel : List String)
      (r : Except SampleErr (List String)) (l' : List String),
    chooseLoopSt draws fuel t total l sel = some (r, l') → l' = l := by
  intro fuel
  induction fuel with
  | zero => intro t total l sel r l' h; simp [chooseLoopSt] at h
  | succ fuel ih =>
    intro t total l sel r l' h
    rw [chooseLoopSt] at h
    by_cases h0 : total = 0
    · rw [if_pos h0] at h
      exact ((Prod.mk.injEq _ _ _ _ ▸ Option.some.inj h).2).symm
    · rw [if_neg h0] at h
      by_cases hl : l.length = 0
      · rw [if_pos hl] at h
        exact ((Prod.mk.injEq _ _ _ _ ▸ Option.some.inj h).2).symm
      · rw [if_neg hl] at h
        by_cases hc : randChoice draws t l ∈ sel
        · rw [if_pos hc] at h
          exact ih (t+1) total l sel r l' h
        · rw [if_neg hc] at h
          exact ih (t+1) (total - 1) l (sel ++ [randChoice draws t l]) r l' h

/-- C1: whenever the sampler is given a list with at least `K` distinct
identifiers and a fair draw stream, some fuel suffices for it to return;
and any returned selection has exactly `K` elements, is duplicate-free,
and draws only from the input list. -/
theorem choose_rand_park_spec (draws : Nat → Nat) (K : Nat) (l : List String)
    (hfair : Fair draws l) (hK : K ≤ l.dedup.length) :
    (∃ fuel r, choose_rand_park draws fuel K l = some (Except.ok r)) ∧
    (∀ fuel r, choose_rand_park draws fuel K l = some (Except.ok r) →
      r.length = K ∧ r.Nodup ∧ ∀ x ∈ r, x ∈ l) := by
  constructor
  · obtain ⟨fuel, r, hr⟩ := chooseLoop_terminates draws l hfair K 0 []
      List.nodup_nil (by simp) (by simpa using hK)
    exact ⟨fuel, r, hr⟩
  · intro fuel r h
    obtain ⟨hnd, hsub, hlen⟩ := chooseLoop_ok_spec draws l fuel 0 K [] r h
      List.nodup_nil (by simp)
    exact ⟨by simpa using hlen, hnd, hsub⟩

theorem choose_rand_park_spec_witness :
    Fair (fun _ => 0) ["a"] ∧ 1 ≤ (["a"] : List String).dedup.length ∧
    (∃ fuel r, choose_rand_park (fun _ => 0) fuel 1 ["a"] =
      some (Except.ok r)) := by
  have hfair : Fair (fun _ => 0) ["a"] := by
    intro t i hi
    refine ⟨0, ?_⟩
    simp only [List.length_singleton] at hi ⊢
    omega
  exact ⟨hfair, by decide,
    (choose_rand_park_spec (fun _ => 0) 1 ["a"] hfair (by decide)).1⟩

/-- C3 counterexample: on the empty identifier list (which has `0 < K`
distinct elements) the sampler terminates at once — `random.choice([])`
raises `IndexError` — instead of looping forever. -/
theorem choose_rand_park_empty_input_terminates :
    choose_rand_park (fun _ => 0) 1 1 [] =
      some (Except.error SampleErr.indexError) := rfl

/-- C3 (amended to nonempty lists): on a nonempty identifier list with
fewer than `K` distinct elements, the sampler loop never returns — every
fuel bound is exhausted, for every draw stream. -/
theorem choose_rand_park_diverges (draws : Nat → Nat) (fuel K : Nat)
    (l : List String) (hne : l ≠ []) (hK : l.dedup.length < K) :
    choose_rand_park draws fuel K l = none := by
  refine chooseLoop_stuck draws l ?_ fuel 0 K [] List.nodup_nil (by simp) ?_
  · simpa [List.length_eq_zero] using hne
  · simpa using hK

theorem choose_rand_park_diverges_witness :
    (["a"] : List String) ≠ [] ∧ (["a"] : List String).dedup.length < 2 ∧
    choose_rand_park (fun _ => 0) 5 2 ["a"] = none :=
  ⟨by decide, by decide,
    choose_rand_park_diverges (fun _ => 0) 5 2 ["a"] (by decide) (by decide)⟩

/-- C10: the sampler never mutates its input list — whenever the
state-threading embedding returns, the final value of `park_ids_list` is
exactly the initial one (same elements, same order). -/
theorem choose_rand_park_preserves_input (draws : Nat → Nat) (fuel K : Nat)
    (l : List String) (r : Except SampleErr (List String))
    (l' : List String)
    (h : choose_rand_park_st draws fuel K l = some (r, l')) : l' = l :=
  chooseLoopSt_preserves draws fuel 0 K l [] r l' h

theorem choose_rand_park_preserves_input_witness :
    choose_rand_park_st (fun _ => 0) 2 1 ["a"] =
      some (Except.ok ["a"], ["a"]) ∧ (["a"] : List String) = ["a"] :=
  ⟨rfl, choose_rand_park_preserves_input (fun _ => 0) 2 1 ["a"]
    (Except.ok ["a"]) ["a"] rfl⟩

/-! ## Data model: catalog, detail records, document, filesystem -/

/-- One element of the catalog response (`/api/list`). -/
structure CatalogEntry where
  name : String
  park_id : String
deriving DecidableEq, Repr

structure Location where
  latitude : Int
  longitude : Int
deriving DecidableEq, Repr

/-- A detail record (`/api/{park_id}`), as consumed by the script. -/
structure ParkDetail where
  name : String
  park_images : List String
  highlights : List String
  park_information : List (String × String)
  address : String
  url : String
  location : Location
deriving DecidableEq, Repr

/-- One element of the python-docx document: a paragraph with a style, or
a picture (which docx wraps in its own paragraph); both carry their
alignment (`centered`). -/
inductive DocItem where
  | para (text : String) (style : String) (centered : Bool)
  | pic (filename : String) (centered : Bool)
deriving DecidableEq, Repr

abbrev Doc := List DocItem

/-- The local working directory: filename to byte content, newest entry
first (`List.lookup` sees the newest write, i.e. overwrite semantics). -/
abbrev FS := List (String × List Nat)

def diskHas (fs : FS) (f : String) : Bool :=
  (fs.lookup f).isSome

def writeFS (fs : FS) (f : String) (content : List Nat) : FS :=
  (f, content) :: fs

/-- Unhandled Python exceptions that can abort the run. -/
inductive PyErr where
  | typeError
  | indexError
  | netError
  | fileNotFound (f : String)
deriving DecidableEq, Repr

/-- The environment: outcomes of all network requests and the random
stream.  `render` stands for the plotly map image bytes (out of scope per
the spec; only its persistence matters here). -/
structure Env where
  catalogResp : Except Unit (List CatalogEntry)
  detailResp : String → Except Unit ParkDetail
  imageBytes : String → Option (List Nat)
  render : Int → Int → List Nat
  draws : Nat → Nat

/-- Pipeline state: filesystem, the shared output document, a pending
file-not-found exception (`err`), console output, and the log of
`document.save` calls (filename and document content saved). -/
structure St where
  fs : FS
  doc : Doc
  err : Option String
  out : List String
  saves : List (String × Doc)
deriving DecidableEq, Repr

def imgName (park_name : String) (index : Nat) : String :=
  park_name ++ "_" ++ toString index ++ ".jpg"

def mapName (park_name : String) : String :=
  park_name ++ "_map.png"

/-! ## Primitive document/filesystem operations

Each operation is a no-op once `err` is set: in Python the exception
aborts the run at that point, so no later operation observes the state —
freezing the state is the faithful account of everything up to the
crash. -/

def addParagraph (text style : String) (st : St) : St :=
  match st.err with
  | some _ => st
  | none => { st with doc := st.doc ++ [DocItem.para text style false] }

def addPicture (f : String) (st : St) : St :=
  match st.err with
  | some _ => st
  | none =>
    if diskHas st.fs f then { st with doc := st.doc ++ [DocItem.pic f false] }
    else { st with err := some f }

def centerItem : DocItem → DocItem
  | DocItem.para t s _ => DocItem.para t s true
  | DocItem.pic f _ => DocItem.pic f true

def setLastCenter : Doc → Doc
  | [] => []
  | [x] => [centerItem x]
  | x :: y :: rest => x :: setLastCenter (y :: rest)

/-- `document.paragraphs[-1].alignment = WD_PARAGRAPH_ALIGNMENT.CENTER`. -/
def centerLast (st : St) : St :=
  match st.err with
  | some _ => st
  | none => { st with doc := setLastCenter st.doc }

def writeFile (f : String) (content : List Nat) (st : St) : St :=
  match st.err with
  | some _ => st
  | none => { st with fs := writeFS st.fs f content }

/-! ## The assembly functions of the source -/

def park_title_and_header_img (pd : ParkDetail) (st : St) : St :=
  addPicture (imgName pd.name 0) (addParagraph pd.name "Heading 1" st)

def park_text_info (pd : ParkDetail) (st : St) : St :=
  let st1 := addParagraph "Highlights" "Heading 2" st
  let st2 := pd.highlights.foldl (fun s h => addParagraph h "List Bullet" s) st1
  pd.park_information.foldl
    (fun s kv => addParagraph kv.2 "Normal" (addParagraph kv.1 "Heading 2" s)) st2

def park_gallery (pd : ParkDetail) (st : St) : St :=
  (List.range 6).foldl
    (fun s index => centerLast (addPicture (imgName pd.name (index+1)) s)) st

def contact_information (pd : ParkDetail) (st : St) : St :=
  addParagraph pd.url "Normal"
    (addParagraph "Website" "Heading 3"
      (addParagraph pd.address "Normal"
        (addParagraph "Address" "Heading 3"
          (addParagraph "Contact Information" "Heading 2" st))))

def open_street_park_map (env : Env) (pd : ParkDetail) (st : St) : St :=
  let st1 := writeFile (mapName pd.name)
    (env.render pd.location.latitude pd.location.longitude) st
  centerLast (addPicture (mapName pd.name) (addParagraph "Map" "Heading 2" st1))

/-! ## The per-entity blocks those functions append -/

def titleBlock (pd : ParkDetail) : Doc :=
  [DocItem.para pd.name "Heading 1" false, DocItem.pic (imgName pd.name 0) false]

def highlightsBlock (pd : ParkDetail) : Doc :=
  DocItem.para "Highlights" "Heading 2" false ::
    pd.highlights.map (fun h => DocItem.para h "List Bullet" false)

def infoBlock (pd : ParkDetail) : Doc :=
  (pd.park_information.map (fun kv =>
    [DocItem.para kv.1 "Heading 2" false, DocItem.para kv.2 "Normal" false])).flatten

def galleryBlock (pd : ParkDetail) : Doc :=
  (List.range 6).map (fun index => DocItem.pic (imgName pd.name (index+1)) true)

def contactBlock (pd : ParkDetail) : Doc :=
  [DocItem.para "Contact Information" "Heading 2" false,
   DocItem.para "Address" "Heading 3" false,
   DocItem.para pd.address "Normal" false,
   DocItem.para "Website" "Heading 3" false,
   DocItem.para pd.url "Normal" false]

def mapBlock (pd : ParkDetail) : Doc :=
  [DocItem.para "Map" "Heading 2" false, DocItem.pic (mapName pd.name) true]

/-- `document.add_paragraph()`: empty text, default style. -/
def blankPara : DocItem := DocItem.para "" "Normal" false

def entityBlock (pd : ParkDetail) : Doc :=
  titleBlock pd ++ highlightsBlock pd ++ infoBlock pd ++ galleryBlock pd ++
    contactBlock pd ++ mapBlock pd

/-! ## Behaviour of the primitive operations

The lemmas are stated at a fully destructured state, where the
operations compute definitionally. -/

theorem addParagraph_ok (t s : String) (fs : FS) (doc : Doc)
    (out : List String) (saves : List (String × Doc)) :
    addParagraph t s ⟨fs, doc, none, out, saves⟩ =
      ⟨fs, doc ++ [DocItem.para t s false], none, out, saves⟩ := rfl

theorem addParagraph_skip (t s : String) (fs : FS) (doc : Doc) (e : String)
    (out : List String) (saves : List (String × Doc)) :
    addParagraph t s ⟨fs, doc, some e, out, saves⟩ =
      ⟨fs, doc, some e, out, saves⟩ := rfl

theorem addPicture_found (f : String) (fs : FS) (doc : Doc)
    (out : List String) (saves : List (String × Doc))
    (hf : diskHas fs f = true) :
    addPicture f ⟨fs, doc, none, out, saves⟩ =
      ⟨fs, doc ++ [DocItem.pic f false], none, out, saves⟩ := by
  simp [addPicture, hf]

theorem addPicture_missing (f : String) (fs : FS) (doc : Doc)
    (out : List String) (saves : List (String × Doc))
    (hf : diskHas fs f = false) :
    addPicture f ⟨fs, doc, none, out, saves⟩ =
      ⟨fs, doc, some f, out, saves⟩ := by
  simp [addPicture, hf]

theorem addPicture_skip (f : String) (fs : FS) (doc : Doc) (e : String)
    (out : List String) (saves : List (String × Doc)) :
    addPicture f ⟨fs, doc, some e, out, saves⟩ =
      ⟨fs, doc, some e, out, saves⟩ := rfl

theorem centerLast_ok (fs : FS) (doc : Doc)
    (out : List String) (saves : List (String × Doc)) :
    centerLast ⟨fs, doc, none, out, saves⟩ =
      ⟨fs, setLastCenter doc, none, out, saves⟩ := rfl

theorem centerLast_skip (fs : FS) (doc : Doc) (e : String)
    (out : List String) (saves : List (String × Doc)) :
    centerLast ⟨fs, doc, some e, out, saves⟩ =
      ⟨fs, doc, some e, out, saves⟩ := rfl

theorem writeFile_ok (f : String) (c : List Nat) (fs : FS) (doc : Doc)
    (out : List String) (saves : List (String × Doc)) :
    writeFile f c ⟨fs, doc, none, out, saves⟩ =
      ⟨writeFS fs f c, doc, none, out, saves⟩ := rfl

theorem setLastCenter_append (d : Doc) (x : DocItem) :
    setLastCenter (d ++ [x]) = d ++ [centerItem x] := by
  induction d with
  | nil => rfl
  | cons a d ih =>
    cases d with
    | nil => rfl
    | cons b d2 =>
      show a :: setLastCenter ((b :: d2) ++ [x]) = a :: ((b :: d2) ++ [centerItem x])
      rw [ih]

theorem diskHas_writeFS_self (fs : FS) (f : String) (c : List Nat) :
    diskHas (writeFS fs f c) f = true := by
  simp [diskHas, writeFS, List.lookup]

/-- The add-then-center idiom used for every gallery and map picture. -/
theorem center_addPicture_found (f : String) (fs : FS) (doc : Doc)
    (out : List String) (saves : List (String × Doc))
    (hf : diskHas fs f = true) :
    centerLast (addPicture f ⟨fs, doc, none, out, saves⟩) =
      ⟨fs, doc ++ [DocItem.pic f true], none, out, saves⟩ := by
  rw [addPicture_found f fs doc out saves hf, centerLast_ok,
    setLastCenter_append]
  rfl

/-! ## The folds inside the assembly functions -/

theorem foldl_addParagraph_spec (style : String) (hs : List String) (fs : FS)
    (doc : Doc) (out : List String) (saves : List (String × Doc)) :
    hs.foldl (fun s t => addParagraph t style s) ⟨fs, doc, none, out, saves⟩ =
      ⟨fs, doc ++ hs.map (fun t => DocItem.para t style false), none, out,
        saves⟩ := by
  induction hs generalizing doc with
  | nil => simp
  | cons a hs ih =>
    rw [List.foldl_cons, addParagraph_ok, ih (doc ++ [DocItem.para a style false])]
    simp

theorem foldl_addParagraph_skip (style : String) (hs : List String) (fs : FS)
    (doc : Doc) (e : String) (out : List String)
    (saves : List (String × Doc)) :
    hs.foldl (fun s t => addParagraph t style s) ⟨fs, doc, some e, out, saves⟩ =
      ⟨fs, doc, some e, out, saves⟩ := by
  induction hs with
  | nil => rfl
  | cons a hs ih => rw [List.foldl_cons, addParagraph_skip, ih]

theorem foldl_info_spec (kvs : List (String × String)) (fs : FS) (doc : Doc)
    (out : List String) (saves : List (String × Doc)) :
    kvs.foldl (fun s kv =>
        addParagraph kv.2 "Normal" (addParagraph kv.1 "Heading 2" s))
      ⟨fs, doc, none, out, saves⟩ =
      ⟨fs, doc ++ (kvs.map (fun kv =>
        [DocItem.para kv.1 "Heading 2" false,
         DocItem.para kv.2 "Normal" false])).flatten, none, out, saves⟩ := by
  induction kvs generalizing doc with
  | nil => simp
  | cons kv kvs ih =>
    rw [List.foldl_cons, addParagraph_ok, addParagraph_ok,
      ih (doc ++ [DocItem.para kv.1 "Heading 2" false] ++
        [DocItem.para kv.2 "Normal" false])]
    simp

theorem foldl_info_skip (kvs : List (String × String)) (fs : FS) (doc : Doc)
    (e : String) (out : List String) (saves : List (String × Doc)) :
    kvs.foldl (fun s kv =>
        addParagraph kv.2 "Normal" (addParagraph kv.1 "Heading 2" s))
      ⟨fs, doc, some e, out, saves⟩ = ⟨fs, doc, some e, out, saves⟩ := by
  induction kvs with
  | nil => rfl
  | cons kv kvs ih =>
    rw [List.foldl_cons, addParagraph_skip, addParagraph_skip, ih]

theorem foldl_gallery_spec (name : String) (idxs : List Nat) (fs : FS)
    (doc : Doc) (out : List String) (saves : List (String × Doc))
    (havail : ∀ i ∈ idxs, diskHas fs (imgName name (i+1)) = true) :
    idxs.foldl (fun s index => centerLast (addPicture (imgName name (index+1)) s))
      ⟨fs, doc, none, out, saves⟩ =
      ⟨fs, doc ++ idxs.map (fun index => DocItem.pic (imgName name (index+1)) true),
        none, out, saves⟩ := by
  induction idxs generalizing doc with
  | nil => simp
  | cons i idxs ih =>
    rw [List.foldl_cons,
      center_addPicture_found _ _ _ _ _ (havail i (List.mem_cons_self i idxs)),
      ih (doc ++ [DocItem.pic (imgName name (i+1)) true])
        (fun j hj => havail j (List.mem_cons_of_mem i hj))]
    simp

theorem foldl_gallery_skip (name : String) (idxs : List Nat) (fs : FS)
    (doc : Doc) (e : String) (out : List String)
    (saves : List (String × Doc)) :
    idxs.foldl (fun s index => centerLast (addPicture (imgName name (index+1)) s))
      ⟨fs, doc, some e, out, saves⟩ = ⟨fs, doc, some e, out, saves⟩ := by
  induction idxs with
  | nil => rfl
  | cons i idxs ih =>
    rw [List.foldl_cons, addPicture_skip, centerLast_skip, ih]

theorem foldl_gallery_inv (name : String) (idxs : List Nat) :
    ∀ (fs : FS) (doc : Doc) (err : Option String) (out : List String)
      (saves : List (String × Doc)),
    (idxs.foldl (fun s index => centerLast (addPicture (imgName name (index+1)) s))
      ⟨fs, doc, err, out, saves⟩).err = none →
    err = none ∧ ∀ i ∈ idxs, diskHas fs (imgName name (i+1)) = true := by
  induction idxs with
  | nil =>
    intro fs doc err out saves h
    exact ⟨h, by simp⟩
  | cons i idxs ih =>
    intro fs doc err out saves h
    cases err with
    | some e =>
      rw [List.foldl_cons, addPicture_skip, centerLast_skip,
        foldl_gallery_skip] at h
      simp at h
    | none =>
      cases hf : diskHas fs (imgName name (i+1)) with
      | false =>
        rw [List.foldl_cons, addPicture_missing _ _ _ _ _ hf, centerLast_skip,
          foldl_gallery_skip] at h
        simp at h
      | true =>
        rw [List.foldl_cons, center_addPicture_found _ _ _ _ _ hf] at h
        obtain ⟨-, hrest⟩ := ih fs
          (doc ++ [DocItem.pic (imgName name (i+1)) true]) none out saves h
        refine ⟨rfl, fun j hj => ?_⟩
        rcases List.mem_cons.1 hj with rfl | hj
        · exact hf
        · exact hrest j hj

/-! ## The five assembly calls of main's loop body, and the separator -/

/-- Lines 39–43 of the source: the five per-entity assembly calls. -/
def assemblePark (env : Env) (pd : ParkDetail) (st : St) : St :=
  open_street_park_map env pd
    (contact_information pd
      (park_gallery pd
        (park_text_info pd
          (park_title_and_header_img pd st))))

/-- The five assembly calls followed by `document.add_paragraph()`. -/
def parkBody (env : Env) (pd : ParkDetail) (st : St) : St :=
  addParagraph "" "Normal" (assemblePark env pd st)

/-! ## Behaviour of the assembly functions -/

theorem addParagraph_err (t s : String) (st : St) :
    (addParagraph t s st).err = st.err := by
  obtain ⟨fs, doc, err, out, saves⟩ := st
  cases err with
  | none => rw [addParagraph_ok]
  | some e => rw [addParagraph_skip]

theorem park_title_ok (pd : ParkDetail) (fs : FS) (doc : Doc)
    (out : List String) (saves : List (String × Doc))
    (hf : diskHas fs (imgName pd.name 0) = true) :
    park_title_and_header_img pd ⟨fs, doc, none, out, saves⟩ =
      ⟨fs, doc ++ titleBlock pd, none, out, saves⟩ := by
  unfold park_title_and_header_img
  rw [addParagraph_ok, addPicture_found _ _ _ _ _ hf]
  simp [titleBlock]

theorem park_title_fail (pd : ParkDetail) (fs : FS) (doc : Doc)
    (out : List String) (saves : List (String × Doc))
    (hf : diskHas fs (imgName pd.name 0) = false) :
    park_title_and_header_img pd ⟨fs, doc, none, out, saves⟩ =
      ⟨fs, doc ++ [DocItem.para pd.name "Heading 1" false],
        some (imgName pd.name 0), out, saves⟩ := by
  unfold park_title_and_header_img
  rw [addParagraph_ok, addPicture_missing _ _ _ _ _ hf]

theorem park_title_skip (pd : ParkDetail) (fs : FS) (doc : Doc) (e : String)
    (out : List String) (saves : List (String × Doc)) :
    park_title_and_header_img pd ⟨fs, doc, some e, out, saves⟩ =
      ⟨fs, doc, some e, out, saves⟩ := rfl

theorem park_text_info_ok (pd : ParkDetail) (fs : FS) (doc : Doc)
    (out : List String) (saves : List (String × Doc)) :
    park_text_info pd ⟨fs, doc, none, out, saves⟩ =
      ⟨fs, doc ++ highlightsBlock pd ++ infoBlock pd, none, out, saves⟩ := by
  simp only [park_text_info]
  rw [addParagraph_ok, foldl_addParagraph_spec, foldl_info_spec]
  simp [highlightsBlock, infoBlock]

theorem park_text_info_skip (pd : ParkDetail) (fs : FS) (doc : Doc)
    (e : String) (out : List String) (saves : List (String × Doc)) :
    park_text_info pd ⟨fs, doc, some e, out, saves⟩ =
      ⟨fs, doc, some e, out, saves⟩ := by
  simp only [park_text_info]
  rw [addParagraph_skip, foldl_addParagraph_skip, foldl_info_skip]

theorem park_gallery_ok (pd : ParkDetail) (fs : FS) (doc : Doc)
    (out : List String) (saves : List (String × Doc))
    (hav : ∀ i ∈ List.range 6, diskHas fs (imgName pd.name (i+1)) = true) :
    park_gallery pd ⟨fs, doc, none, out, saves⟩ =
      ⟨fs, doc ++ galleryBlock pd, none, out, saves⟩ := by
  unfold park_gallery
  rw [foldl_gallery_spec _ _ _ _ _ _ hav]
  rfl

theorem park_gallery_skip (pd : ParkDetail) (fs : FS) (doc : Doc)
    (e : String) (out : List String) (saves : List (String × Doc)) :
    park_gallery pd ⟨fs, doc, some e, out, saves⟩ =
      ⟨fs, doc, some e, out, saves⟩ :=
  foldl_gallery_skip pd.name (List.range 6) fs doc e out saves

theorem park_gallery_inv (pd : ParkDetail) (fs : FS) (doc : Doc)
    (err : Option String) (out : List String) (saves : List (String × Doc))
    (h : (park_gallery pd ⟨fs, doc, err, out, saves⟩).err = none) :
    err = none ∧ ∀ i ∈ List.range 6, diskHas fs (imgName pd.name (i+1)) = true :=
  foldl_gallery_inv pd.name (List.range 6) fs doc err out saves h

theorem contact_information_ok (pd : ParkDetail) (fs : FS) (doc : Doc)
    (out : List String) (saves : List (String × Doc)) :
    contact_information pd ⟨fs, doc, none, out, saves⟩ =
      ⟨fs, doc ++ contactBlock pd, none, out, saves⟩ := by
  unfold contact_information
  rw [addParagraph_ok, addParagraph_ok, addParagraph_ok, addParagraph_ok,
    addParagraph_ok]
  simp [contactBlock]

theorem contact_information_skip (pd : ParkDetail) (fs : FS) (doc : Doc)
    (e : String) (out : List String) (saves : List (String × Doc)) :
    contact_information pd ⟨fs, doc, some e, out, saves⟩ =
      ⟨fs, doc, some e, out, saves⟩ := rfl

theorem contact_information_err (pd : ParkDetail) (st : St) :
    (contact_information pd st).err = st.err := by
  unfold contact_information
  rw [addParagraph_err, addParagraph_err, addParagraph_err, addParagraph_err,
    addParagraph_err]

theorem open_street_ok (env : Env) (pd : ParkDetail) (fs : FS) (doc : Doc)
    (out : List String) (saves : List (String × Doc)) :
    open_street_park_map env pd ⟨fs, doc, none, out, saves⟩ =
      ⟨writeFS fs (mapName pd.name)
          (env.render pd.location.latitude pd.location.longitude),
        doc ++ mapBlock pd, none, out, saves⟩ := by
  simp only [open_street_park_map]
  rw [writeFile_ok, addParagraph_ok,
    addPicture_found _ _ _ _ _ (diskHas_writeFS_self _ _ _), centerLast_ok,
    setLastCenter_append]
  simp [mapBlock, centerItem]

theorem open_street_skip (env : Env) (pd : ParkDetail) (fs : FS) (doc : Doc)
    (e : String) (out : List String) (saves : List (String × Doc)) :
    open_street_park_map env pd ⟨fs, doc, some e, out, saves⟩ =
      ⟨fs, doc, some e, out, saves⟩ := rfl

theorem open_street_park_map_err (env : Env) (pd : ParkDetail) (st : St) :
    (open_street_park_map env pd st).err = st.err := by
  obtain ⟨fs, doc, err, out, saves⟩ := st
  cases err with
  | none => rw [open_street_ok]
  | some e => rw [open_street_skip]

theorem assemblePark_ok (env : Env) (pd : ParkDetail) (fs : FS) (doc : Doc)
    (out : List String) (saves : List (String × Doc))
    (hf0 : diskHas fs (imgName pd.name 0) = true)
    (hav : ∀ i ∈ List.range 6, diskHas fs (imgName pd.name (i+1)) = true) :
    assemblePark env pd ⟨fs, doc, none, out, saves⟩ =
      ⟨writeFS fs (mapName pd.name)
          (env.render pd.location.latitude pd.location.longitude),
        doc ++ entityBlock pd, none, out, saves⟩ := by
  unfold assemblePark
  rw [park_title_ok _ _ _ _ _ hf0, park_text_info_ok,
    park_gallery_ok _ _ _ _ _ hav, contact_information_ok, open_street_ok]
  simp [entityBlock, List.append_assoc]

theorem assemblePark_skip (env : Env) (pd : ParkDetail) (fs : FS) (doc : Doc)
    (e : String) (out : List String) (saves : List (String × Doc)) :
    assemblePark env pd ⟨fs, doc, some e, out, saves⟩ =
      ⟨fs, doc, some e, out, saves⟩ := by
  unfold assemblePark
  rw [park_title_skip, park_text_info_skip, park_gallery_skip,
    contact_information_skip, open_street_skip]

theorem parkBody_skip (env : Env) (pd : ParkDetail) (fs : FS) (doc : Doc)
    (e : String) (out : List String) (saves : List (String × Doc)) :
    parkBody env pd ⟨fs, doc, some e, out, saves⟩ =
      ⟨fs, doc, some e, out, saves⟩ := by
  unfold parkBody
  rw [assemblePark_skip, addParagraph_skip]

/-- Inversion: a loop body that finishes without a pending exception
started without one, found every needed image file, and appended exactly
the entity block and the blank separator (writing only the map file). -/
theorem parkBody_inv (env : Env) (pd : ParkDetail) (fs : FS) (doc : Doc)
    (err : Option String) (out : List String) (saves : List (String × Doc))
    (h : (parkBody env pd ⟨fs, doc, err, out, saves⟩).err = none) :
    err = none ∧
    parkBody env pd ⟨fs, doc, err, out, saves⟩ =
      ⟨writeFS fs (mapName pd.name)
          (env.render pd.location.latitude pd.location.longitude),
        doc ++ entityBlock pd ++ [blankPara], none, out, saves⟩ := by
  cases err with
  | some e =>
    rw [parkBody_skip] at h
    simp at h
  | none =>
    have hG : (park_gallery pd (park_text_info pd
        (park_title_and_header_img pd ⟨fs, doc, none, out, saves⟩))).err
        = none := by
      unfold parkBody assemblePark at h
      rw [addParagraph_err, open_street_park_map_err,
        contact_information_err] at h
      exact h
    cases hf0 : diskHas fs (imgName pd.name 0) with
    | false =>
      rw [park_title_fail _ _ _ _ _ hf0, park_text_info_skip,
        park_gallery_skip] at hG
      simp at hG
    | true =>
      rw [park_title_ok _ _ _ _ _ hf0, park_text_info_ok] at hG
      obtain ⟨-, hav⟩ := park_gallery_inv pd fs _ none out saves hG
      refine ⟨rfl, ?_⟩
      unfold parkBody
      rw [assemblePark_ok _ _ _ _ _ _ hf0 hav, addParagraph_ok]
      rfl

/-! ## Network fetch functions (`master_park_data`, `detailed_park_data`)

Each wraps its request in try/except: a caught failure prints one
diagnostic line and falls off the end of the function, i.e. returns
`None`.  The pair is (returned value, console output). -/

def catalogFailMsg : String :=
  "There was an error requesting park data. Check network connection."

def detailFailMsg : String :=
  "There was an error requesting park information. Check network connection."

def master_park_data (env : Env) : Option (List CatalogEntry) × List String :=
  match env.catalogResp with
  | Except.ok data => (some data, [])
  | Except.error _ => (none, [catalogFailMsg])

def detailed_park_data (env : Env) (park_id : String) :
    Option ParkDetail × List String :=
  match env.detailResp park_id with
  | Except.ok data => (some data, [])
  | Except.error _ => (none, [detailFailMsg])

theorem detailed_park_data_some (env : Env) (pid : String) (pd : ParkDetail)
    (o : List String) (h : detailed_park_data env pid = (some pd, o)) :
    env.detailResp pid = Except.ok pd := by
  unfold detailed_park_data at h
  cases hr : env.detailResp pid with
  | ok d =>
    rw [hr] at h
    simp at h
    rw [h.1]
  | error e =>
    rw [hr] at h
    simp at h

theorem master_park_data_some (env : Env) (entries : List CatalogEntry)
    (o : List String) (h : master_park_data env = (some entries, o)) :
    env.catalogResp = Except.ok entries := by
  unfold master_park_data at h
  cases hr : env.catalogResp with
  | ok data =>
    rw [hr] at h
    simp at h
    rw [h.1]
  | error e =>
    rw [hr] at h
    simp at h

/-! ## Asset downloader (`download_images`)

`enumerate(park_images)` with the running index; a failed request is an
unhandled `requests` exception (`netError`). -/

def download_loop (env : Env) (park_name : String) :
    Nat → List String → FS → Except PyErr FS
  | _, [], fs => Except.ok fs
  | index, url :: rest, fs =>
    match env.imageBytes url with
    | none => Except.error PyErr.netError
    | some bytes =>
      download_loop env park_name (index+1) rest
        (writeFS fs (imgName park_name index) bytes)

def download_images (env : Env) (park_images : List String)
    (park_name : String) (fs : FS) : Except PyErr FS :=
  download_loop env park_name 0 park_images fs

/-! ## `main` -/

/-- Python dict insertion: `park_dict[name] = id` keeps the position of an
existing key and overwrites its value, otherwise appends. -/
def dictInsert (d : List (String × String)) (k v : String) :
    List (String × String) :=
  if d.any (fun kv => kv.1 == k) then
    d.map (fun kv => if kv.1 = k then (k, v) else kv)
  else d ++ [(k, v)]

def buildParkDict (entries : List CatalogEntry) : List (String × String) :=
  entries.foldl (fun d e => dictInsert d e.name e.park_id) []

def guideTitle : DocItem :=
  DocItem.para "Minnesota State Park Travel Guide" "Title" false

def saveName : String := "Minnesota_State_Park_Travel_Guide_Final.docx"

/-- `document.save(...)`: records the filename and the document content
saved at that moment. -/
def docSave (fname : String) (st : St) : St :=
  { st with saves := st.saves ++ [(fname, st.doc)] }

/-- Promotes a pending file-not-found exception of the assembly state to
an aborting error, as the unhandled `FileNotFoundError` does in Python. -/
def stepCheck (r : St) : Except PyErr St :=
  match r.err with
  | some f => Except.error (PyErr.fileNotFound f)
  | none => Except.ok r

/-- `each_park = detailed_park_data(park_id)` followed by
`each_park['name']`: a caught detail-fetch failure returns `None` (and
prints nothing on success), and subscripting `None` raises `TypeError`. -/
def fetchDetail (env : Env) (park_id : String) : Except PyErr ParkDetail :=
  match detailed_park_data env park_id with
  | (none, _) => Except.error PyErr.typeError
  | (some pd, _) => Except.ok pd

/-- The `for park_id in random_park_id_selection` loop of `main`:
detail fetch, image download, the five assembly calls plus the blank
separator, exception check, next iteration. -/
def parkLoop (env : Env) : List String → St → Except PyErr St
  | [], st => Except.ok st
  | park_id :: rest, st =>
    Except.bind (fetchDetail env park_id) (fun pd =>
      Except.bind (download_images env pd.park_images pd.name st.fs) (fun fs2 =>
        Except.bind (stepCheck (parkBody env pd { st with fs := fs2 })) (fun st2 =>
          parkLoop env rest st2)))

theorem except_bind_ok {α β : Type} (a : α) (f : α → Except PyErr β) :
    Except.bind (Except.ok a) f = f a := rfl

theorem except_bind_error {α β : Type} (e : PyErr) (f : α → Except PyErr β) :
    Except.bind (Except.error e : Except PyErr α) f = Except.error e := rfl

theorem stepCheck_some (r : St) (f : String) (h : r.err = some f) :
    stepCheck r = Except.error (PyErr.fileNotFound f) := by
  simp [stepCheck, h]

theorem stepCheck_none (r : St) (h : r.err = none) :
    stepCheck r = Except.ok r := by
  simp [stepCheck, h]

theorem fetchDetail_ok (env : Env) (pid : String) (pd : ParkDetail)
    (h : fetchDetail env pid = Except.ok pd) :
    env.detailResp pid = Except.ok pd := by
  unfold fetchDetail at h
  cases hr : env.detailResp pid with
  | ok d =>
    have hd : detailed_park_data env pid = (some d, []) := by
      unfold detailed_park_data
      rw [hr]
    rw [hd] at h
    simp at h
    rw [h]
  | error e =>
    have hd : detailed_park_data env pid = (none, [detailFailMsg]) := by
      unfold detailed_park_data
      rw [hr]
    rw [hd] at h
    simp at h

/-- `main()`: title paragraph, catalog fetch (iterating a `None` catalog
raises `TypeError`), sampling (on fuel), the per-park loop, final save. -/
def mainRun (env : Env) (fuel : Nat) (fs0 : FS) : Option (Except PyErr St) :=
  match master_park_data env with
  | (none, _) => some (Except.error PyErr.typeError)
  | (some entries, o) =>
    match choose_rand_park env.draws fuel 5
        ((buildParkDict entries).map (fun kv => kv.2)) with
    | none => none
    | some (Except.error _) => some (Except.error PyErr.indexError)
    | some (Except.ok sel) =>
      match parkLoop env sel ⟨fs0, [guideTitle], none, o, []⟩ with
      | Except.error e => some (Except.error e)
      | Except.ok st => some (Except.ok (docSave saveName st))

/-- A loop run that returns appended, per selected identifier in order,
exactly one entity block followed by one blank separator; it performed no
save and left no pending exception. -/
theorem parkLoop_ok_inv (env : Env) :
    ∀ (sel : List String) (st st2 : St),
    parkLoop env sel st = Except.ok st2 → st.err = none →
    ∃ pds : List ParkDetail,
      List.Forall₂ (fun pid pd => env.detailResp pid = Except.ok pd) sel pds ∧
      st2.doc = st.doc ++
        (pds.map (fun pd => entityBlock pd ++ [blankPara])).flatten ∧
      st2.err = none ∧ st2.saves = st.saves := by
  intro sel
  induction sel with
  | nil =>
    intro st st2 h he
    have hst : st = st2 := Except.ok.inj h
    subst hst
    exact ⟨[], List.Forall₂.nil, by simp, he, rfl⟩
  | cons pid rest ih =>
    intro st st2 h he
    rw [parkLoop] at h
    cases hd : fetchDetail env pid with
    | error e =>
      rw [hd, except_bind_error] at h
      simp at h
    | ok pd =>
      rw [hd, except_bind_ok] at h
      cases hdl : download_images env pd.park_images pd.name st.fs with
      | error e =>
        rw [hdl, except_bind_error] at h
        simp at h
      | ok fs2 =>
        rw [hdl, except_bind_ok] at h
        cases hb : (parkBody env pd { st with fs := fs2 }).err with
        | some f =>
          rw [stepCheck_some _ _ hb, except_bind_error] at h
          simp at h
        | none =>
          rw [stepCheck_none _ hb, except_bind_ok] at h
          rw [he] at h hb
          obtain ⟨-, hbody⟩ :=
            parkBody_inv env pd fs2 st.doc none st.out st.saves hb
          rw [hbody] at h
          obtain ⟨pds, hfa, hdoc, herr2, hsaves⟩ := ih _ st2 h rfl
          refine ⟨pd :: pds,
            List.Forall₂.cons (fetchDetail_ok env pid pd hd) hfa,
            ?_, herr2, ?_⟩
          · rw [hdoc]
            simp
          · rw [hsaves]

/-- A successful `main` run: the catalog was fetched, a selection was
sampled, every selected identifier's detail record was fetched, the final
document is the guide title followed by the per-entity blocks in sampled
order (each closed by one blank separator), and exactly one save was
recorded, of that final document. -/
theorem mainRun_ok_inv (env : Env) (fuel : Nat) (fs0 : FS) (st : St)
    (h : mainRun env fuel fs0 = some (Except.ok st)) :
    ∃ entries sel pds,
      env.catalogResp = Except.ok entries ∧
      choose_rand_park env.draws fuel 5
        ((buildParkDict entries).map (fun kv => kv.2)) = some (Except.ok sel) ∧
      List.Forall₂ (fun pid pd => env.detailResp pid = Except.ok pd) sel pds ∧
      st.doc = guideTitle ::
        (pds.map (fun pd => entityBlock pd ++ [blankPara])).flatten ∧
      st.saves = [(saveName, st.doc)] := by
  unfold mainRun at h
  split at h
  · simp at h
  · next entries2 o heq =>
    have hcat : env.catalogResp = Except.ok entries2 :=
      master_park_data_some env entries2 o heq
    split at h
    · simp at h
    · simp at h
    · next sel hs =>
      split at h
      · simp at h
      · next st1 hp =>
        simp only [Option.some.injEq, Except.ok.injEq] at h
        obtain ⟨pds, hfa, hdoc, -, hsaves⟩ :=
          parkLoop_ok_inv env sel _ st1 hp rfl
        refine ⟨entries2, sel, pds, hcat, hs, hfa, ?_, ?_⟩
        · rw [← h]
          simpa [docSave] using hdoc
        · rw [← h]
          simp [docSave, hsaves]

/-! ## Claim theorems for the document assembler -/

/-- C2: on a state with no pending exception whose disk holds the header
image and the six gallery images, the five per-entity assembly calls
append, in this order: the title paragraph with the header image, the
`Highlights` block with one bullet per highlight, one heading+body
paragraph pair per information category, the 6 center-aligned gallery
images (file indices 1 through 6), the contact block with the address and
the website url, and the map block under a `Map` heading (whose image
file the map step itself writes). -/
theorem document_assembler_order (env : Env) (pd : ParkDetail) (st : St)
    (he : st.err = none)
    (h0 : diskHas st.fs (imgName pd.name 0) = true)
    (hg : ∀ i, i < 6 → diskHas st.fs (imgName pd.name (i+1)) = true) :
    assemblePark env pd st =
      { st with
        fs := writeFS st.fs (mapName pd.name)
          (env.render pd.location.latitude pd.location.longitude),
        doc := st.doc ++ titleBlock pd ++ highlightsBlock pd ++ infoBlock pd ++
          galleryBlock pd ++ contactBlock pd ++ mapBlock pd } ∧
    (highlightsBlock pd).length = 1 + pd.highlights.length ∧
    infoBlock pd = (pd.park_information.map (fun kv =>
      [DocItem.para kv.1 "Heading 2" false,
       DocItem.para kv.2 "Normal" false])).flatten ∧
    galleryBlock pd =
      [DocItem.pic (imgName pd.name 1) true, DocItem.pic (imgName pd.name 2) true,
       DocItem.pic (imgName pd.name 3) true, DocItem.pic (imgName pd.name 4) true,
       DocItem.pic (imgName pd.name 5) true, DocItem.pic (imgName pd.name 6) true] ∧
    DocItem.para pd.address "Normal" false ∈ contactBlock pd ∧
    DocItem.para pd.url "Normal" false ∈ contactBlock pd ∧
    mapBlock pd = [DocItem.para "Map" "Heading 2" false,
      DocItem.pic (mapName pd.name) true] := by
  obtain ⟨fs, doc, err, out, saves⟩ := st
  have he2 : err = none := he
  subst he2
  refine ⟨?_, ?_, rfl, ?_, ?_, ?_, rfl⟩
  · rw [assemblePark_ok env pd fs doc out saves h0
      (fun i hi => hg i (List.mem_range.1 hi))]
    simp [entityBlock, List.append_assoc]
  · simp [highlightsBlock, Nat.add_comm]
  · rfl
  · simp [contactBlock]
  · simp [contactBlock]

def envC2 : Env :=
  { catalogResp := Except.error (), detailResp := fun _ => Except.error (),
    imageBytes := fun _ => none, render := fun _ _ => [7],
    draws := fun _ => 0 }

def pdC2 : ParkDetail :=
  { name := "Itasca", park_images := [], highlights := ["h1", "h2"],
    park_information := [("Info", "text")], address := "addr", url := "u",
    location := ⟨47, -95⟩ }

def stC2 : St :=
  ⟨[("Itasca_0.jpg", []), ("Itasca_1.jpg", []), ("Itasca_2.jpg", []),
    ("Itasca_3.jpg", []), ("Itasca_4.jpg", []), ("Itasca_5.jpg", []),
    ("Itasca_6.jpg", [])], [], none, [], []⟩

theorem document_assembler_order_witness :
    stC2.err = none ∧ diskHas stC2.fs (imgName pdC2.name 0) = true ∧
    (∀ i, i < 6 → diskHas stC2.fs (imgName pdC2.name (i+1)) = true) ∧
    assemblePark envC2 pdC2 stC2 =
      { stC2 with
        fs := writeFS stC2.fs (mapName pdC2.name)
          (envC2.render pdC2.location.latitude pdC2.location.longitude),
        doc := stC2.doc ++ titleBlock pdC2 ++ highlightsBlock pdC2 ++
          infoBlock pdC2 ++ galleryBlock pdC2 ++ contactBlock pdC2 ++
          mapBlock pdC2 } :=
  ⟨rfl, by decide, by decide,
    (document_assembler_order envC2 pdC2 stC2 rfl (by decide) (by decide)).1⟩

/-- C5: on a state whose disk holds exactly the gallery images with
indices `1..m` (for `m < 6`), `park_gallery` appends the `m` available
center-aligned images and then fails on the `(m+1)`-th gallery append
with a file-not-found for gallery index `m+1`. -/
theorem park_gallery_partial_failure (pd : ParkDetail) (st : St) (m : Nat)
    (he : st.err = none) (hm : m < 6)
    (hdisk : ∀ i, i < 6 →
      (diskHas st.fs (imgName pd.name (i+1)) = true ↔ i < m)) :
    (park_gallery pd st).err = some (imgName pd.name (m+1)) ∧
    (park_gallery pd st).doc = st.doc ++
      (List.range m).map (fun i => DocItem.pic (imgName pd.name (i+1)) true) := by
  obtain ⟨fs, doc, err, out, saves⟩ := st
  have he2 : err = none := he
  subst he2
  have hav1 : ∀ i ∈ List.range m, diskHas fs (imgName pd.name (i+1)) = true := by
    intro i hi
    have him : i < m := List.mem_range.1 hi
    exact (hdisk i (by omega)).2 him
  have hmiss : diskHas fs (imgName pd.name (m+1)) = false := by
    have h2 := hdisk m hm
    simp [Nat.lt_irrefl] at h2
    exact h2
  unfold park_gallery
  have h6 : List.range 6 = List.range m ++ (List.range (6 - m)).map (m + ·) := by
    rw [← List.range_add]
    have : m + (6 - m) = 6 := by omega
    rw [this]
  rw [h6, List.foldl_append, foldl_gallery_spec pd.name _ fs doc out saves hav1]
  have h6m : 6 - m = (5 - m) + 1 := by omega
  rw [h6m, List.range_succ_eq_map, List.map_cons, List.foldl_cons]
  have hmz : m + 0 = m := Nat.add_zero m
  rw [hmz, addPicture_missing _ _ _ _ _ hmiss, centerLast_skip,
    foldl_gallery_skip]
  exact ⟨rfl, rfl⟩

def pdC5 : ParkDetail :=
  { name := "A", park_images := [], highlights := [],
    park_information := [], address := "", url := "", location := ⟨0, 0⟩ }

def stC5 : St :=
  ⟨[("A_1.jpg", []), ("A_2.jpg", []), ("A_3.jpg", [])], [], none, [], []⟩

theorem park_gallery_partial_failure_witness :
    stC5.err = none ∧ 3 < 6 ∧
    (∀ i, i < 6 →
      (diskHas stC5.fs (imgName pdC5.name (i+1)) = true ↔ i < 3)) ∧
    (park_gallery pdC5 stC5).err = some (imgName pdC5.name 4) :=
  ⟨rfl, by decide, by decide,
    (park_gallery_partial_failure pdC5 stC5 3 rfl (by decide) (by decide)).1⟩

/-! ## Claim theorems for the fetch functions and the downloader -/

/-- C4: a failed catalog or detail request is caught inside the fetch
function: the function returns (it does not re-raise), prints exactly the
one diagnostic line, and yields an absent (`none`) result rather than a
typed error. -/
theorem fetch_failure_handling (env : Env) (pid : String)
    (hc : env.catalogResp = Except.error ())
    (hd : env.detailResp pid = Except.error ()) :
    master_park_data env = (none, [catalogFailMsg]) ∧
    detailed_park_data env pid = (none, [detailFailMsg]) := by
  constructor
  · unfold master_park_data
    rw [hc]
  · unfold detailed_park_data
    rw [hd]

def envFail : Env :=
  { catalogResp := Except.error (), detailResp := fun _ => Except.error (),
    imageBytes := fun _ => none, render := fun _ _ => [],
    draws := fun _ => 0 }

theorem fetch_failure_handling_witness :
    envFail.catalogResp = Except.error () ∧
    envFail.detailResp "1" = Except.error () ∧
    master_park_data envFail = (none, [catalogFailMsg]) :=
  ⟨rfl, rfl, (fetch_failure_handling envFail "1" rfl rfl).1⟩

theorem lookup_writeFS_self (fs : FS) (f : String) (c : List Nat) :
    (writeFS fs f c).lookup f = some c := by
  simp [writeFS, List.lookup]

theorem lookup_writeFS_ne (fs : FS) (f g : String) (c : List Nat)
    (h : g ≠ f) : (writeFS fs f c).lookup g = fs.lookup g := by
  have hb : (g == f) = false := beq_eq_false_iff_ne.2 h
  simp [writeFS, List.lookup, hb]

/-- C7: with three URLs whose requests succeed with bodies `b0 b1 b2` and
entity name `Itasca`, the downloader succeeds and produces exactly the
files `Itasca_0.jpg`, `Itasca_1.jpg`, `Itasca_2.jpg` holding those exact
bytes — overwriting any previous file of those names (the new content
shadows any old entry) and leaving every other filename untouched. -/
theorem download_images_spec (env : Env) (u0 u1 u2 : String) (fs : FS)
    (b0 b1 b2 : List Nat) (h0 : env.imageBytes u0 = some b0)
    (h1 : env.imageBytes u1 = some b1) (h2 : env.imageBytes u2 = some b2) :
    ∃ fs2, download_images env [u0, u1, u2] "Itasca" fs = Except.ok fs2 ∧
      fs2.lookup "Itasca_0.jpg" = some b0 ∧
      fs2.lookup "Itasca_1.jpg" = some b1 ∧
      fs2.lookup "Itasca_2.jpg" = some b2 ∧
      ∀ g, g ≠ "Itasca_0.jpg" → g ≠ "Itasca_1.jpg" → g ≠ "Itasca_2.jpg" →
        fs2.lookup g = fs.lookup g := by
  refine ⟨writeFS (writeFS (writeFS fs "Itasca_0.jpg" b0) "Itasca_1.jpg" b1)
    "Itasca_2.jpg" b2, ?_, ?_, ?_, ?_, ?_⟩
  · simp [download_images, download_loop, h0, h1, h2]
    rfl
  · rw [lookup_writeFS_ne _ _ _ _ (by decide),
      lookup_writeFS_ne _ _ _ _ (by decide), lookup_writeFS_self]
  · rw [lookup_writeFS_ne _ _ _ _ (by decide), lookup_writeFS_self]
  · rw [lookup_writeFS_self]
  · intro g hg0 hg1 hg2
    rw [lookup_writeFS_ne _ _ _ _ hg2, lookup_writeFS_ne _ _ _ _ hg1,
      lookup_writeFS_ne _ _ _ _ hg0]

def envC7 : Env :=
  { catalogResp := Except.error (), detailResp := fun _ => Except.error (),
    imageBytes := fun u =>
      if u = "u0" then some [1] else if u = "u1" then some [2]
      else if u = "u2" then some [3] else none,
    render := fun _ _ => [], draws := fun _ => 0 }

theorem download_images_spec_witness :
    envC7.imageBytes "u0" = some [1] ∧ envC7.imageBytes "u1" = some [2] ∧
    envC7.imageBytes "u2" = some [3] ∧
    (∃ fs2, download_images envC7 ["u0", "u1", "u2"] "Itasca" [] =
        Except.ok fs2 ∧
      fs2.lookup "Itasca_0.jpg" = some [1] ∧
      fs2.lookup "Itasca_1.jpg" = some [2] ∧
      fs2.lookup "Itasca_2.jpg" = some [3] ∧
      ∀ g, g ≠ "Itasca_0.jpg" → g ≠ "Itasca_1.jpg" → g ≠ "Itasca_2.jpg" →
        fs2.lookup g = ([] : FS).lookup g) :=
  ⟨by decide, by decide, by decide,
    download_images_spec envC7 "u0" "u1" "u2" [] [1] [2] [3]
      (by decide) (by decide) (by decide)⟩

/-! ## Claim theorems for the whole pipeline -/

/-- C6: in every successful run of `main`, the document is saved exactly
once, under the fixed filename, and the saved content is the final
document — every appended section precedes the single save, so the file
is never written incrementally or before the loop completes. -/
theorem main_saves_once (env : Env) (fuel : Nat) (fs0 : FS) (st : St)
    (h : mainRun env fuel fs0 = some (Except.ok st)) :
    st.saves = [(saveName, st.doc)] := by
  obtain ⟨entries, sel, pds, -, -, -, -, hsaves⟩ :=
    mainRun_ok_inv env fuel fs0 st h
  exact hsaves

/-- C8: in every successful run, the final document is the guide title
followed by exactly one block per sampled identifier, in sampled order;
each entity's block starts with that entity's title paragraph, ends with
its map picture (so it is not itself blank-terminated), and is followed
by exactly one blank separator paragraph. -/
theorem main_doc_structure (env : Env) (fuel : Nat) (fs0 : FS) (st : St)
    (h : mainRun env fuel fs0 = some (Except.ok st)) :
    ∃ entries sel pds,
      env.catalogResp = Except.ok entries ∧
      choose_rand_park env.draws fuel 5
        ((buildParkDict entries).map (fun kv => kv.2)) =
        some (Except.ok sel) ∧
      List.Forall₂ (fun pid pd => env.detailResp pid = Except.ok pd) sel pds ∧
      st.doc = guideTitle ::
        (pds.map (fun pd => entityBlock pd ++ [blankPara])).flatten ∧
      (∀ pd ∈ pds, (entityBlock pd).head? =
        some (DocItem.para pd.name "Heading 1" false)) ∧
      (∀ pd ∈ pds, (entityBlock pd).getLast? =
        some (DocItem.pic (mapName pd.name) true)) := by
  obtain ⟨entries, sel, pds, hc, hs, hfa, hdoc, -⟩ :=
    mainRun_ok_inv env fuel fs0 st h
  refine ⟨entries, sel, pds, hc, hs, hfa, hdoc, ?_, ?_⟩
  · intro pd _
    rfl
  · intro pd _
    show ((titleBlock pd ++ highlightsBlock pd ++ infoBlock pd ++
      galleryBlock pd ++ contactBlock pd) ++
      ([DocItem.para "Map" "Heading 2" false] ++
        [DocItem.pic (mapName pd.name) true])).getLast? = _
    rw [← List.append_assoc]
    exact List.getLast?_concat _

/-- The concrete environment of the end-to-end scenario: five parks, all
requests succeed, the draw stream enumerates the positions in order. -/
def parksW : List CatalogEntry :=
  [⟨"P1", "1"⟩, ⟨"P2", "2"⟩, ⟨"P3", "3"⟩, ⟨"P4", "4"⟩, ⟨"P5", "5"⟩]

def pdW (pid : String) : ParkDetail :=
  { name := "P" ++ pid,
    park_images := ["u0", "u1", "u2", "u3", "u4", "u5", "u6"],
    highlights := ["h"], park_information := [("Info", "text")],
    address := "addr", url := "w", location := ⟨1, 2⟩ }

def envW : Env :=
  { catalogResp := Except.ok parksW,
    detailResp := fun pid => Except.ok (pdW pid),
    imageBytes := fun _ => some [9],
    render := fun _ _ => [8],
    draws := fun t => t }

def stW : St :=
  match mainRun envW 6 [] with
  | some (Except.ok st) => st
  | _ => ⟨[], [], none, [], []⟩

theorem runW_eq : mainRun envW 6 [] = some (Except.ok stW) := rfl

theorem main_saves_once_witness :
    mainRun envW 6 [] = some (Except.ok stW) ∧
    stW.saves = [(saveName, stW.doc)] :=
  ⟨runW_eq, main_saves_once envW 6 [] stW runW_eq⟩

theorem main_doc_structure_witness :
    mainRun envW 6 [] = some (Except.ok stW) ∧
    (∃ entries sel pds,
      envW.catalogResp = Except.ok entries ∧
      choose_rand_park envW.draws 6 5
        ((buildParkDict entries).map (fun kv => kv.2)) =
        some (Except.ok sel) ∧
      List.Forall₂ (fun pid pd => envW.detailResp pid = Except.ok pd) sel pds ∧
      stW.doc = guideTitle ::
        (pds.map (fun pd => entityBlock pd ++ [blankPara])).flatten ∧
      (∀ pd ∈ pds, (entityBlock pd).head? =
        some (DocItem.para pd.name "Heading 1" false)) ∧
      (∀ pd ∈ pds, (entityBlock pd).getLast? =
        some (DocItem.pic (mapName pd.name) true))) :=
  ⟨runW_eq, main_doc_structure envW 6 [] stW runW_eq⟩

/-- A run in which the catalog request is accepted but every detail
request fails. -/
def envFailDetail : Env :=
  { catalogResp := Except.ok parksW, detailResp := fun _ => Except.error (),
    imageBytes := fun _ => none, render := fun _ _ => [],
    draws := fun t => t }

/-- C9: `main` does not guard the absent results of the fetch functions.
When the catalog fetch fails, `master_park_data` returns `None` (after
printing its diagnostic) and `main` then crashes with `TypeError` while
iterating that `None`; when a detail fetch fails, `detailed_park_data`
returns `None` and `main` crashes with `TypeError` subscripting it —
in both cases an unrelated error, not a handled absence. -/
theorem main_unguarded_fetch_failure :
    ((master_park_data envFail).1 = none ∧
      (master_park_data envFail).2 = [catalogFailMsg] ∧
      mainRun envFail 1 [] = some (Except.error PyErr.typeError)) ∧
    ((detailed_park_data envFailDetail "1").1 = none ∧
      (detailed_park_data envFailDetail "1").2 = [detailFailMsg] ∧
      mainRun envFailDetail 6 [] = some (Except.error PyErr.typeError)) :=
  ⟨⟨rfl, rfl, rfl⟩, ⟨rfl, rfl, rfl⟩⟩

end ParkGuide
